import Mathlib

/-!
# Shallow embedding of the `forth` evaluator (`src/main.rs`)

The repository is a single Rust file implementing a line-oriented evaluator
for a minimal Forth-like language.  This file embeds the pieces needed to
settle the specification claims:

* `Keyword` — the `enum Keyword` (main.rs 6-18);
* `KEYWORDS_get` — the static `phf_map!` of built-ins (main.rs 20-29),
  as a chain of exact (case-sensitive) string comparisons, which is what
  `phf::Map::get` performs;
* `parseI64` — Rust's `str::parse::<i64>()` (base-10, optional single
  leading sign, all-ASCII-digit, range-checked against the `i64` bounds);
* `Evaluator` — the struct owning only `definitions` (main.rs 31-33; note
  the struct has **no stack field**, the stack in `process` is a local);
* `Evaluator.parse_word` (main.rs 116-127);
* `evaluate` (main.rs 77-114).  The stack is a `Vec<i64>`; here it is a
  `List Int` with the **head as the top of the stack** (the end of the
  `Vec`), and functions that surface the `Vec` to the caller (the returned
  stack, the `{:?}` snapshot in the "too few arguments" error) reverse it
  back into bottom-to-top order.  `i64` arithmetic wraps into the 64-bit
  two's-complement range (`wrap64`), the behaviour of the source's
  `arg1 + arg2` etc. with overflow checks off; with debug assertions the
  same inputs panic instead of wrapping — either way the mathematical
  result is not produced on overflow, which is all the claims touch.
  `i64::MIN / -1` panics unconditionally in Rust; that outcome is the
  `divOverflow` error below;
* `processLoop` / `Evaluator.processTokens` / `Evaluator.process` — the
  nested loops of `process` (main.rs 42-75).  The inner loop can diverge
  for a hypothetical state whose `definitions` table maps a word to a body
  mentioning itself, so the loop takes explicit fuel and returns `none`
  when the fuel runs out; `process` never inserts into `definitions`, so
  every reachable evaluator has an empty table and the fuel
  `2 * tokens.length + 1` is exact (one step per outer iteration, one per
  inner handling of the parsed keyword).

The `cmd_stack : Vec<Keyword>` of `process` is popped from its end; it is
represented here reversed, head = next element to pop, so
`cmd_stack.append(def.clone())` becomes `def.reverse ++ cmdStack`.
-/

namespace Forth

/-- Decidable equality for `Except`, so that runs of the evaluator on
concrete inputs can be checked by `decide`. -/
instance {ε α : Type} [DecidableEq ε] [DecidableEq α] : DecidableEq (Except ε α)
  | .error e1, .error e2 =>
    match decEq e1 e2 with
    | isTrue h => isTrue (by rw [h])
    | isFalse h => isFalse (by intro hh; cases hh; exact h rfl)
  | .error _, .ok _ => isFalse (by intro h; cases h)
  | .ok _, .error _ => isFalse (by intro h; cases h)
  | .ok a1, .ok a2 =>
    match decEq a1 a2 with
    | isTrue h => isTrue (by rw [h])
    | isFalse h => isFalse (by intro hh; cases hh; exact h rfl)

/-- The `enum Keyword` of main.rs 6-18. -/
inductive Keyword where
  | Plus
  | Minus
  | Mul
  | Div
  | Over
  | Swap
  | Dup
  | Drop
  | UserCmd (name : String)
  | Number (n : Int)
deriving DecidableEq

/-- The error kinds of Rust's `ParseIntError` (`core::num`), as produced by
`word.parse::<i64>()` and propagated by `parse_word` via `map_err(|e| e.into())`.
Note the parse error carries no copy of the offending token. -/
inductive ParseIntErrorKind where
  | empty
  | invalidDigit
  | posOverflow
  | negOverflow
deriving DecidableEq

/-- The failure outcomes of `process`/`evaluate`/`parse_word` (the `bail!`
sites of main.rs plus the propagated integer-parse error).  `divOverflow`
stands for the unconditional Rust panic on `i64::MIN / -1`. -/
inductive EvalError where
  | parseIntError (kind : ParseIntErrorKind)
  | unknownCommand (name : String)
  | unexpectedKeyword (kw : Keyword)
  | tooFewArguments (kw : Keyword) (stack : List Int)
  | divideByZero
  | divOverflow
deriving DecidableEq

/-- `KEYWORDS.get(word)`: the static `phf_map!` of main.rs 20-29.  `phf`
lookup compares the query against the stored keys byte-for-byte, i.e.
case-sensitively. -/
def KEYWORDS_get (w : String) : Option Keyword :=
  if w = "+" then some .Plus
  else if w = "-" then some .Minus
  else if w = "*" then some .Mul
  else if w = "/" then some .Div
  else if w = "dup" then some .Dup
  else if w = "over" then some .Over
  else if w = "drop" then some .Drop
  else if w = "swap" then some .Swap
  else none

/-- Lower bound of `i64`. -/
def I64_MIN : Int := -9223372036854775808

/-- Upper bound of `i64`. -/
def I64_MAX : Int := 9223372036854775807

/-- Two's-complement wrap into the `i64` range. -/
def wrap64 (n : Int) : Int :=
  (n + 9223372036854775808) % 18446744073709551616 - 9223372036854775808

/-- Accumulate the value of a run of ASCII digits; `none` on the first
non-digit character. -/
def digitsValAux : List Char → Nat → Option Nat
  | [], acc => some acc
  | c :: cs, acc =>
    if c.isDigit then digitsValAux cs (acc * 10 + (c.toNat - '0'.toNat))
    else none

/-- Rust's `str::parse::<i64>()`: an optional single leading `+`/`-`, then
one or more ASCII digits, with the result range-checked against the `i64`
bounds (Rust checks overflow digit by digit; for base-10 digit strings that
is equivalent to checking the final value). -/
def parseI64 (s : String) : Except ParseIntErrorKind Int :=
  match s.toList with
  | [] => .error .empty
  | c :: cs =>
    let signDigits : Bool × List Char :=
      if c = '-' then (true, cs)
      else if c = '+' then (false, cs)
      else (false, c :: cs)
    match signDigits with
    | (neg, ds) =>
      match ds with
      | [] => .error .invalidDigit
      | _ =>
        match digitsValAux ds 0 with
        | none => .error .invalidDigit
        | some v =>
          if neg then
            if (v : Int) ≤ 9223372036854775808 then .ok (-(v : Int))
            else .error .negOverflow
          else
            if (v : Int) ≤ 9223372036854775807 then .ok (v : Int)
            else .error .posOverflow

/-- `struct Evaluator` (main.rs 31-33): the only field is the definitions
table; the stack in `process` is a local variable.  The `HashMap` is
embedded as an association list (the program never inserts into it, so
every reachable table is empty and the representation is immaterial). -/
structure Evaluator where
  definitions : List (String × List Keyword)

/-- `Evaluator::new()` (main.rs 36-40). -/
def Evaluator.new : Evaluator :=
  { definitions := [] }

/-- `Evaluator::parse_word` (main.rs 116-127): definitions table first
(`contains_key`, exact match), then the built-in map (exact match), then
`parse::<i64>()`, whose error is surfaced unchanged. -/
def parse_word (defs : List (String × List Keyword)) (word : String) :
    Except EvalError Keyword :=
  if (defs.lookup word).isSome then .ok (.UserCmd word)
  else
    match KEYWORDS_get word with
    | some kw => .ok kw
    | none =>
      match parseI64 word with
      | .ok n => .ok (.Number n)
      | .error e => .error (.parseIntError e)

/-- `Evaluator::evaluate` (main.rs 77-114).  Stack head = top.  `Drop` and
`Dup` pop and fail (without popping) only on an empty stack; the six
remaining operations check `stack.len() < 2` before popping `arg2` (the
top) and `arg1`.  The "too few arguments" error snapshots the stack in the
`Vec`'s bottom-to-top order, hence the `reverse`. -/
def evaluate (stack : List Int) (keyword : Keyword) : Except EvalError (List Int) :=
  match keyword with
  | .Number n => .error (.unexpectedKeyword (.Number n))
  | .UserCmd name => .error (.unexpectedKeyword (.UserCmd name))
  | .Drop =>
    match stack with
    | [] => .error (.tooFewArguments .Drop [])
    | _ :: rest => .ok rest
  | .Dup =>
    match stack with
    | [] => .error (.tooFewArguments .Dup [])
    | num :: rest => .ok (num :: num :: rest)
  | op =>
    match stack with
    | arg2 :: arg1 :: rest =>
      match op with
      | .Plus => .ok (wrap64 (arg1 + arg2) :: rest)
      | .Minus => .ok (wrap64 (arg1 - arg2) :: rest)
      | .Mul => .ok (wrap64 (arg1 * arg2) :: rest)
      | .Div =>
        if arg2 = 0 then .error .divideByZero
        else if arg1 = I64_MIN ∧ arg2 = -1 then .error .divOverflow
        else .ok (Int.tdiv arg1 arg2 :: rest)
      | .Over => .ok (arg1 :: arg2 :: arg1 :: rest)
      | .Swap => .ok (arg1 :: arg2 :: rest)
      | _ => .error (.unexpectedKeyword op)
    | _ => .error (.tooFewArguments op stack.reverse)

/-- The nested loops of `Evaluator::process` (main.rs 48-74), as a fueled
step function.  `cur = none` is the top of the outer loop (fetch the next
token); `cur = some kw` is the inner loop about to handle `kw`.  On
`Number` the inner loop pushes and `break`s (the pending `cmdStack` is kept
for the next token's inner loop); on `UserCmd` the resolved body is
appended to `cmdStack`; otherwise `evaluate` runs; then the inner loop pops
the next pending keyword or, when none is pending, `break`s to the outer
loop.  `cmdStack` is stored reversed (head = next to pop).  Running out of
tokens returns `Ok(stack)` in bottom-to-top order; `none` is fuel
exhaustion (unreachable from any state the program can construct). -/
def processLoop (defs : List (String × List Keyword)) :
    Nat → List Int → List Keyword → Option Keyword → List String →
    Option (Except EvalError (List Int))
  | 0, _, _, _, _ => none
  | _ + 1, stack, _, none, [] => some (.ok stack.reverse)
  | fuel + 1, stack, cmdStack, none, t :: ts =>
    match parse_word defs t with
    | .error e => some (.error e)
    | .ok kw => processLoop defs fuel stack cmdStack (some kw) ts
  | fuel + 1, stack, cmdStack, some kw, tokens =>
    match kw with
    | .Number n => processLoop defs fuel (n :: stack) cmdStack none tokens
    | .UserCmd name =>
      match defs.lookup name with
      | none => some (.error (.unknownCommand name))
      | some body =>
        match body.reverse ++ cmdStack with
        | [] => processLoop defs fuel stack [] none tokens
        | k :: cs => processLoop defs fuel stack cs (some k) tokens
    | _ =>
      match evaluate stack kw with
      | .error e => some (.error e)
      | .ok stack2 =>
        match cmdStack with
        | [] => processLoop defs fuel stack2 [] none tokens
        | k :: cs => processLoop defs fuel stack2 cs (some k) tokens

/-- `Evaluator::process` on an already-tokenized line: start the loop with
an empty local stack and empty pending-command stack (main.rs 45-46). -/
def Evaluator.processTokens (ev : Evaluator) (tokens : List String) :
    Option (Except EvalError (List Int)) :=
  processLoop ev.definitions (2 * tokens.length + 1) [] [] none tokens

/-- `row.split_whitespace()`: split into maximal runs of non-whitespace
characters, discarding the separators. -/
def wordsAux : List Char → List Char → List String
  | [], acc => if acc.isEmpty then [] else [String.mk acc.reverse]
  | c :: cs, acc =>
    if c.isWhitespace then
      if acc.isEmpty then wordsAux cs []
      else String.mk acc.reverse :: wordsAux cs []
    else wordsAux cs (c :: acc)

/-- Tokenize a line the way `split_whitespace` does. -/
def splitWS (s : String) : List String :=
  wordsAux s.toList []

/-- `Evaluator::process` (main.rs 42-75) on a line of text. -/
def Evaluator.process (ev : Evaluator) (line : String) :
    Option (Except EvalError (List Int)) :=
  ev.processTokens (splitWS line)

/-- `process` with the `&mut self` receiver made explicit: the method body
never assigns to `self.definitions` (there is no insertion anywhere in the
program), so the state comes back unchanged. -/
def Evaluator.processMut (ev : Evaluator) (line : String) :
    Option (Except EvalError (List Int)) × Evaluator :=
  (ev.process line, ev)

/-- A sequence of `process` calls on the same evaluator instance,
returning the final instance state. -/
def Evaluator.runLines (ev : Evaluator) (lines : List String) : Evaluator :=
  lines.foldl (fun e l => (e.processMut l).2) ev

/-- `process` specialized to an empty definitions table (every reachable
evaluator): with no user words, the inner loop runs exactly once per token,
so the loop collapses to this simple recursion.  `processLoop_nil_defs`
below proves the equivalence. -/
def runSimple : List Int → List String → Except EvalError (List Int)
  | stack, [] => .ok stack.reverse
  | stack, t :: ts =>
    match parse_word [] t with
    | .error e => .error e
    | .ok (.Number n) => runSimple (n :: stack) ts
    | .ok (.UserCmd name) => .error (.unknownCommand name)
    | .ok kw =>
      match evaluate stack kw with
      | .error e => .error e
      | .ok stack2 => runSimple stack2 ts

/-- All tokens of a line parse as base-10 `i64` literals, with their
values. -/
def parseAll : List String → Option (List Int)
  | [] => some []
  | t :: ts =>
    match parseI64 t with
    | .error _ => none
    | .ok n =>
      match parseAll ts with
      | none => none
      | some ms => some (n :: ms)

/-! ## Helper lemmas -/

/-- None of the eight built-in key strings parses as an integer. -/
theorem parseI64_keyword_strings :
    parseI64 "+" = .error .invalidDigit ∧ parseI64 "-" = .error .invalidDigit ∧
    parseI64 "*" = .error .invalidDigit ∧ parseI64 "/" = .error .invalidDigit ∧
    parseI64 "dup" = .error .invalidDigit ∧ parseI64 "over" = .error .invalidDigit ∧
    parseI64 "drop" = .error .invalidDigit ∧ parseI64 "swap" = .error .invalidDigit := by
  decide

/-- A token that parses as an integer is not a built-in keyword. -/
theorem KEYWORDS_get_none_of_num (w : String) (n : Int) (h : parseI64 w = .ok n) :
    KEYWORDS_get w = none := by
  have hk := parseI64_keyword_strings
  unfold KEYWORDS_get
  split_ifs with h1 h2 h3 h4 h5 h6 h7 h8
  · subst h1; rw [hk.1] at h; exact Except.noConfusion h
  · subst h2; rw [hk.2.1] at h; exact Except.noConfusion h
  · subst h3; rw [hk.2.2.1] at h; exact Except.noConfusion h
  · subst h4; rw [hk.2.2.2.1] at h; exact Except.noConfusion h
  · subst h5; rw [hk.2.2.2.2.1] at h; exact Except.noConfusion h
  · subst h6; rw [hk.2.2.2.2.2.1] at h; exact Except.noConfusion h
  · subst h7; rw [hk.2.2.2.2.2.2.1] at h; exact Except.noConfusion h
  · subst h8; rw [hk.2.2.2.2.2.2.2] at h; exact Except.noConfusion h
  · rfl

/-- With an empty definitions table, a token that parses as an integer
resolves to its literal. -/
theorem parse_word_nil_num (t : String) (n : Int) (h : parseI64 t = .ok n) :
    parse_word [] t = .ok (.Number n) := by
  simp [parse_word, KEYWORDS_get_none_of_num t n h, h, List.lookup]

/-- With an empty definitions table, a token that is neither a built-in
nor an integer makes `parse_word` surface the integer-parse error. -/
theorem parse_word_nil_err (t : String) (k : ParseIntErrorKind)
    (hkw : KEYWORDS_get t = none) (ht : parseI64 t = .error k) :
    parse_word [] t = .error (.parseIntError k) := by
  simp [parse_word, hkw, ht, List.lookup]

/-- With an empty definitions table the fuel `2 * tokens + 1` is exact and
the loop of `process` computes `runSimple`. -/
theorem processLoop_nil_defs :
    ∀ (ts : List String) (stack : List Int),
      processLoop [] (2 * ts.length + 1) stack [] none ts = some (runSimple stack ts) := by
  intro ts
  induction ts with
  | nil =>
    intro stack
    simp [processLoop, runSimple]
  | cons t ts ih =>
    intro stack
    have hf : 2 * (t :: ts).length + 1 = (2 * ts.length + 2) + 1 := by
      simp [List.length_cons]; ring
    rw [hf]
    simp only [processLoop]
    cases hpw : parse_word [] t with
    | error e =>
      simp [runSimple, hpw]
    | ok kw =>
      cases kw with
      | Number n =>
        simp only [runSimple, hpw]
        exact ih (n :: stack)
      | UserCmd name =>
        simp [runSimple, hpw, List.lookup]
      | Plus =>
        simp only [runSimple, hpw]
        cases he : evaluate stack .Plus with
        | error e => simp
        | ok stack2 => simp only []; exact ih stack2
      | Minus =>
        simp only [runSimple, hpw]
        cases he : evaluate stack .Minus with
        | error e => simp
        | ok stack2 => simp only []; exact ih stack2
      | Mul =>
        simp only [runSimple, hpw]
        cases he : evaluate stack .Mul with
        | error e => simp
        | ok stack2 => simp only []; exact ih stack2
      | Div =>
        simp only [runSimple, hpw]
        cases he : evaluate stack .Div with
        | error e => simp
        | ok stack2 => simp only []; exact ih stack2
      | Over =>
        simp only [runSimple, hpw]
        cases he : evaluate stack .Over with
        | error e => simp
        | ok stack2 => simp only []; exact ih stack2
      | Swap =>
        simp only [runSimple, hpw]
        cases he : evaluate stack .Swap with
        | error e => simp
        | ok stack2 => simp only []; exact ih stack2
      | Dup =>
        simp only [runSimple, hpw]
        cases he : evaluate stack .Dup with
        | error e => simp
        | ok stack2 => simp only []; exact ih stack2
      | Drop =>
        simp only [runSimple, hpw]
        cases he : evaluate stack .Drop with
        | error e => simp
        | ok stack2 => simp only []; exact ih stack2

/-- `processTokens` on a fresh evaluator is `runSimple` from the empty
stack. -/
theorem processTokens_new_eq (ts : List String) :
    Evaluator.new.processTokens ts = some (runSimple [] ts) :=
  processLoop_nil_defs ts []

/-- Stepping `runSimple` over a literal token pushes its value. -/
theorem runSimple_cons_num (t : String) (n : Int) (stack : List Int) (ts : List String)
    (h : parseI64 t = .ok n) :
    runSimple stack (t :: ts) = runSimple (n :: stack) ts := by
  simp [runSimple, parse_word_nil_num t n h]

/-- Stepping `runSimple` over a prefix of literal tokens pushes their
values (top of stack = head of the list = last literal). -/
theorem runSimple_append_literals :
    ∀ (ts : List String) (ns : List Int) (stack : List Int) (more : List String),
      parseAll ts = some ns →
      runSimple stack (ts ++ more) = runSimple (ns.reverse ++ stack) more := by
  intro ts
  induction ts with
  | nil =>
    intro ns stack more h
    simp [parseAll] at h
    subst h
    simp
  | cons t ts ih =>
    intro ns stack more h
    simp only [parseAll] at h
    cases hp : parseI64 t with
    | error e => rw [hp] at h; simp at h
    | ok n =>
      rw [hp] at h
      cases hall : parseAll ts with
      | none => rw [hall] at h; simp at h
      | some ms =>
        rw [hall] at h
        simp at h
        subst h
        rw [List.cons_append, runSimple_cons_num t n stack (ts ++ more) hp,
          ih ms (n :: stack) more hall]
        simp

/-- An integer in the `i64` range is fixed by the two's-complement wrap. -/
theorem wrap64_eq_self (n : Int) (h1 : I64_MIN ≤ n) (h2 : n ≤ I64_MAX) :
    wrap64 n = n := by
  unfold I64_MIN at h1
  unfold I64_MAX at h2
  unfold wrap64
  rw [Int.emod_eq_of_lt (by omega) (by omega)]
  omega

/-- `process` never writes to the evaluator state (there is no insertion
into `definitions` anywhere in the program), so any sequence of calls
leaves the instance as it started. -/
theorem runLines_id (lines : List String) :
    ∀ (ev : Evaluator), ev.runLines lines = ev := by
  induction lines with
  | nil => intro ev; rfl
  | cons l ls ih => intro ev; exact ih ev

/-- `parse_word` resolves the four operator tokens to their built-ins on
an empty table. -/
theorem parse_word_ops :
    parse_word [] "+" = .ok .Plus ∧ parse_word [] "-" = .ok .Minus ∧
    parse_word [] "*" = .ok .Mul ∧ parse_word [] "/" = .ok .Div := by
  decide

/-! ## Claims -/

/-- Claim C1 (code bug): `process` implements no definition lines at all.
The token `:` is not in the definitions table (nothing ever inserts into
it), is not a built-in, and does not parse as an integer, so the repo's own
test line `: dup-twice dup dup ;` (main.rs 426) is rejected with the
integer-parse error instead of registering the word, and the subsequent
call line `1 dup-twice` fails the same way — contradicting the claim and
the `user-defined` test cases, which expect `[1, 1, 1]`. -/
theorem c1_definition_line_is_rejected :
    Evaluator.new.process ": dup-twice dup dup ;" =
      some (.error (.parseIntError .invalidDigit)) ∧
    Evaluator.new.process "1 dup-twice" =
      some (.error (.parseIntError .invalidDigit)) := by
  constructor
  · decide
  · decide

/-- Claim C2 counterexample: the stack does not accumulate across calls.
On the instance left by a successful `process("10")` (which returned
`[10]`), `process("1 2 3")` returns `[1, 2, 3]`, not the `[10, 1, 2, 3]`
the claim requires — exactly the behaviour the repo's `test_num` test
(main.rs 145-155) asserts. -/
theorem c2_stack_accumulates_counterexample :
    (Evaluator.new.processMut "10").1 = some (.ok [10]) ∧
    (Evaluator.new.processMut "10").2.process "1 2 3" = some (.ok [1, 2, 3]) ∧
    (some (Except.ok [1, 2, 3]) : Option (Except EvalError (List Int))) ≠
      some (Except.ok [10, 1, 2, 3]) := by
  refine ⟨by decide, by decide, by decide⟩

/-- Claim C2 (amended): the stack is per-call, not per-instance.  `process`
evaluates each line on a fresh empty local stack, and the only instance
state, the definitions table, is never written; hence after any sequence of
calls the next `process` behaves exactly as on a fresh evaluator, and on
success returns only the values produced by its own line, bottom to top. -/
theorem c2_stack_fresh_per_call (lines : List String) (line : String) :
    (Evaluator.new.runLines lines).process line = Evaluator.new.process line := by
  rw [runLines_id lines Evaluator.new]

/-- Claim C3 (code bug): token matching is case-sensitive, not
case-insensitive.  `KEYWORDS` holds only the lowercase spellings and `phf`
lookup is exact, so the repo's own `DUP case insensitivity` test line
`1 DUP Dup dup` (main.rs 480), expected to yield `[1, 1, 1, 1]`, instead
fails on the token `DUP` with the integer-parse error. -/
theorem c3_uppercase_builtin_rejected :
    Evaluator.new.process "1 DUP Dup dup" =
      some (.error (.parseIntError .invalidDigit)) := by
  decide

/-- Claim C4: a line consisting solely of base-10 signed integer literals
is processed successfully and yields exactly those values, in input order,
bottom to top. -/
theorem c4_literal_line_pushes_in_order (line : String) (ns : List Int)
    (h : parseAll (splitWS line) = some ns) :
    Evaluator.new.process line = some (.ok ns) := by
  have h2 := runSimple_append_literals (splitWS line) ns [] [] h
  rw [List.append_nil] at h2
  show Evaluator.new.processTokens (splitWS line) = some (.ok ns)
  rw [processTokens_new_eq, h2]
  simp [runSimple]

/-- Witness for C4 on the repo's own `test_num` input. -/
theorem c4_literal_line_pushes_in_order_witness :
    Evaluator.new.process "1 3 -2" = some (.ok [1, 3, -2]) :=
  c4_literal_line_pushes_in_order "1 3 -2" [1, 3, -2] (by decide)

/-- Claim C5 counterexample: the claim does not hold for all integers.
At `a = i64::MAX`, `b = 1` the sum `9223372036854775808` does not fit in
`i64`, so `process("9223372036854775807 1 +")` cannot yield `[a + b]`: it
wraps to `[i64::MIN]` (and panics outright under debug assertions). -/
theorem c5_addition_overflow_counterexample :
    Evaluator.new.processTokens ["9223372036854775807", "1", "+"] =
      some (.ok [-9223372036854775808]) ∧
    (some (Except.ok [-9223372036854775808]) :
        Option (Except EvalError (List Int))) ≠
      some (Except.ok [9223372036854775808]) := by
  refine ⟨by decide, by decide⟩

/-- Claim C5 (amended): for literal tokens `ta`, `tb` with values `a`, `b`,
`process("a b +")` yields `[a + b]`, `process("a b -")` yields `[a - b]`,
`process("a b *")` yields `[a * b]` — provided the result fits in `i64`
(otherwise the source wraps or panics, never producing the mathematical
result) — and for `b ≠ 0`, excluding the overflowing pair
`a = i64::MIN, b = -1` (which panics), `process("a b /")` yields the
quotient truncated toward zero.  The second-popped operand `a` is the left
argument throughout. -/
theorem c5_arithmetic_ops (ta tb : String) (a b : Int)
    (ha : parseI64 ta = .ok a) (hb : parseI64 tb = .ok b) :
    (I64_MIN ≤ a + b → a + b ≤ I64_MAX →
      Evaluator.new.processTokens [ta, tb, "+"] = some (.ok [a + b])) ∧
    (I64_MIN ≤ a - b → a - b ≤ I64_MAX →
      Evaluator.new.processTokens [ta, tb, "-"] = some (.ok [a - b])) ∧
    (I64_MIN ≤ a * b → a * b ≤ I64_MAX →
      Evaluator.new.processTokens [ta, tb, "*"] = some (.ok [a * b])) ∧
    (b ≠ 0 → ¬(a = I64_MIN ∧ b = -1) →
      Evaluator.new.processTokens [ta, tb, "/"] = some (.ok [Int.tdiv a b])) := by
  have hops := parse_word_ops
  refine ⟨?_, ?_, ?_, ?_⟩
  · intro h1 h2
    rw [processTokens_new_eq, runSimple_cons_num ta a [] [tb, "+"] ha,
      runSimple_cons_num tb b [a] ["+"] hb]
    simp [runSimple, hops.1, evaluate, wrap64_eq_self (a + b) h1 h2]
  · intro h1 h2
    rw [processTokens_new_eq, runSimple_cons_num ta a [] [tb, "-"] ha,
      runSimple_cons_num tb b [a] ["-"] hb]
    simp [runSimple, hops.2.1, evaluate, wrap64_eq_self (a - b) h1 h2]
  · intro h1 h2
    rw [processTokens_new_eq, runSimple_cons_num ta a [] [tb, "*"] ha,
      runSimple_cons_num tb b [a] ["*"] hb]
    simp [runSimple, hops.2.2.1, evaluate, wrap64_eq_self (a * b) h1 h2]
  · intro h1 h2
    rw [processTokens_new_eq, runSimple_cons_num ta a [] [tb, "/"] ha,
      runSimple_cons_num tb b [a] ["/"] hb]
    simp [runSimple, hops.2.2.2, evaluate, h1, h2]

/-- Witness for C5 at `a = 7`, `b = -2` (division truncates toward zero:
`7 / -2 = -3`). -/
theorem c5_arithmetic_ops_witness :
    Evaluator.new.processTokens ["7", "-2", "+"] = some (.ok [5]) ∧
    Evaluator.new.processTokens ["7", "-2", "-"] = some (.ok [9]) ∧
    Evaluator.new.processTokens ["7", "-2", "*"] = some (.ok [-14]) ∧
    Evaluator.new.processTokens ["7", "-2", "/"] = some (.ok [-3]) := by
  have h := c5_arithmetic_ops "7" "-2" 7 (-2) (by decide) (by decide)
  refine ⟨?_, ?_, ?_, ?_⟩
  · exact h.1 (by decide) (by decide)
  · exact h.2.1 (by decide) (by decide)
  · exact h.2.2.1 (by decide) (by decide)
  · exact h.2.2.2 (by decide) (by decide)

/-- Claim C6: dividing with top-of-stack divisor `0` fails with the
divide-by-zero error for every dividend and every stack below it, and at
the `process` level the error is returned immediately, ignoring the rest
of the line. -/
theorem c6_divide_by_zero_aborts :
    (∀ (a : Int) (s : List Int), evaluate (0 :: a :: s) .Div = .error .divideByZero) ∧
    (∀ (ta tb : String) (a : Int) (rest : List String),
      parseI64 ta = .ok a → parseI64 tb = .ok 0 →
      Evaluator.new.processTokens (ta :: tb :: "/" :: rest) =
        some (.error .divideByZero)) := by
  constructor
  · intro a s
    simp [evaluate]
  · intro ta tb a rest ha hb
    rw [processTokens_new_eq, runSimple_cons_num ta a [] (tb :: "/" :: rest) ha,
      runSimple_cons_num tb 0 [a] ("/" :: rest) hb]
    simp [runSimple, parse_word_ops.2.2.2, evaluate]

/-- Witness for C6: `9 0 / 5 +` fails with divide-by-zero, the trailing
`5 +` never running. -/
theorem c6_divide_by_zero_aborts_witness :
    Evaluator.new.processTokens ["9", "0", "/", "5", "+"] =
      some (.error .divideByZero) :=
  c6_divide_by_zero_aborts.2 "9" "0" 9 ["5", "+"] (by decide) (by decide)

/-- Claim C7: `dup`, `drop`, `swap`, `over` transform the stack exactly as
the §4.2 table prescribes (stacks written top-first), and with fewer
operands than required each fails with the too-few-arguments error that
records the operation and the bottom-to-top stack snapshot. -/
theorem c7_stack_manipulation_ops :
    (∀ (a : Int) (s : List Int), evaluate (a :: s) .Dup = .ok (a :: a :: s)) ∧
    (∀ (a : Int) (s : List Int), evaluate (a :: s) .Drop = .ok s) ∧
    (∀ (b a : Int) (s : List Int), evaluate (b :: a :: s) .Swap = .ok (a :: b :: s)) ∧
    (∀ (b a : Int) (s : List Int),
      evaluate (b :: a :: s) .Over = .ok (a :: b :: a :: s)) ∧
    evaluate [] .Dup = .error (.tooFewArguments .Dup []) ∧
    evaluate [] .Drop = .error (.tooFewArguments .Drop []) ∧
    (∀ (s : List Int), s.length < 2 →
      evaluate s .Swap = .error (.tooFewArguments .Swap s.reverse)) ∧
    (∀ (s : List Int), s.length < 2 →
      evaluate s .Over = .error (.tooFewArguments .Over s.reverse)) := by
  refine ⟨?_, ?_, ?_, ?_, by decide, by decide, ?_, ?_⟩
  · intro a s; simp [evaluate]
  · intro a s; simp [evaluate]
  · intro b a s; simp [evaluate]
  · intro b a s; simp [evaluate]
  · intro s hs
    match s with
    | [] => simp [evaluate]
    | [a] => simp [evaluate]
    | a :: b :: t => simp at hs; omega
  · intro s hs
    match s with
    | [] => simp [evaluate]
    | [a] => simp [evaluate]
    | a :: b :: t => simp at hs; omega

/-- Witness for C7: `swap` and `over` on the one-element stack `[9]` (the
repo's `test_swap`/`test_over` error cases). -/
theorem c7_stack_manipulation_ops_witness :
    evaluate [9] .Swap = .error (.tooFewArguments .Swap [9]) ∧
    evaluate [9] .Over = .error (.tooFewArguments .Over [9]) :=
  ⟨c7_stack_manipulation_ops.2.2.2.2.2.2.1 [9] (by decide),
   c7_stack_manipulation_ops.2.2.2.2.2.2.2 [9] (by decide)⟩

/-- Claim C8 counterexample: an undefined, non-numeric, non-built-in token
does make `process` fail, but the error is the raw integer-parse error
(`invalid digit found in string`), which carries no copy of the token —
not an `UnknownCommand`-style error identifying it.  (The only
`Unknown command` bail in `process` is unreachable, because `UserCmd` is
produced solely for tokens present in the always-empty table.) -/
theorem c8_unknown_token_counterexample :
    Evaluator.new.process "foo" = some (.error (.parseIntError .invalidDigit)) ∧
    EvalError.parseIntError .invalidDigit ≠ .unknownCommand "foo" := by
  refine ⟨by decide, by decide⟩

/-- Claim C8 (amended): a token that is neither a built-in nor parseable
as a base-10 `i64` literal (user-defined words never exist, since nothing
inserts into the table) makes `process` fail as soon as it is reached,
with the integer-parse error from `parse::<i64>()` — an error that does
not name the token. -/
theorem c8_unknown_token_fails (ts : List String) (ns : List Int) (t : String)
    (k : ParseIntErrorKind) (rest : List String)
    (hts : parseAll ts = some ns) (hkw : KEYWORDS_get t = none)
    (ht : parseI64 t = .error k) :
    Evaluator.new.processTokens (ts ++ t :: rest) =
      some (.error (.parseIntError k)) := by
  rw [processTokens_new_eq, runSimple_append_literals ts ns [] (t :: rest) hts]
  simp [runSimple, parse_word_nil_err t k hkw ht]

/-- Witness for C8: `1 foo 2` fails at `foo`. -/
theorem c8_unknown_token_fails_witness :
    Evaluator.new.processTokens ["1", "foo", "2"] =
      some (.error (.parseIntError .invalidDigit)) :=
  c8_unknown_token_fails ["1"] [1] "foo" .invalidDigit ["2"]
    (by decide) (by decide) (by decide)

/-- Claim C9 counterexample: the repo's `redefine numbers` test line
`: 1 2 ;` does fail, but with the integer-parse error on the very first
token `:` — there is no `IllegalDefinition` error anywhere in the program,
and the word name is never even reached. -/
theorem c9_numeric_name_counterexample :
    Evaluator.new.process ": 1 2 ;" =
      some (.error (.parseIntError .invalidDigit)) := by
  decide

/-- Claim C9 (amended): every line starting with the token `:` — whatever
name it tries to bind, numeric or not — fails with the integer-parse error
on `:` itself, because `process` has no definition-line handling:  `:` is
not a stored word, not a built-in, and not a number. -/
theorem c9_definition_lines_all_fail (rest : List String) :
    Evaluator.new.processTokens (":" :: rest) =
      some (.error (.parseIntError .invalidDigit)) := by
  rw [processTokens_new_eq]
  have h : parse_word [] ":" = .error (.parseIntError .invalidDigit) := by decide
  simp [runSimple, h]

/-- Claim C10: an operation that fails for lack of operands reports, in
the error itself, its identity and exactly the stack as it was before the
operation began (in bottom-to-top order): the failing operation commits no
pops or pushes — binary operations check the depth before popping, `dup`
and `drop` fail only when there was nothing to pop. -/
theorem c10_insufficient_operands_preserve_stack (s : List Int) (kw kw2 : Keyword)
    (s2 : List Int) (h : evaluate s kw = .error (.tooFewArguments kw2 s2)) :
    kw2 = kw ∧ s2 = s.reverse := by
  cases kw <;> rcases s with _ | ⟨a, _ | ⟨b, t⟩⟩ <;> simp [evaluate] at h <;>
    first
      | (split_ifs at h <;> simp_all)
      | exact ⟨h.1.symm, h.2.symm⟩
      | exact ⟨h.1.symm, h.2⟩

/-- Witness for C10 on the repo's `test_plus` error case: `+` on the
one-element stack `[2]` reports operation `Plus` and snapshot `[2]`. -/
theorem c10_insufficient_operands_preserve_stack_witness :
    evaluate [2] .Plus = .error (.tooFewArguments .Plus [2]) ∧
    (Keyword.Plus = Keyword.Plus ∧ [(2 : Int)] = List.reverse [(2 : Int)]) :=
  ⟨by decide, c10_insufficient_operands_preserve_stack [2] .Plus .Plus [2] (by decide)⟩

end Forth
